import Mathlib

/-!
Verification development for the chunked big-file upload server
(`src/packages/forms/src/components/form/UploadBigFile/uploadBigFileServer.ts`).

The filesystem is embedded as a finite tree of named entries; the order of a
directory's entry list models the order in which `fs.readdir` returns the
names (which the OS does not guarantee to be sorted).  All byte contents are
`List Nat`.  `runUpload` embeds `loadUploadFiles` from the point where the
request has passed the method / CSRF / marker gating and the metadata has been
validated (source lines 55-136): the earlier gating returns before touching
storage.  Failed promises (`fs.writeFile` into a missing directory, streams
opened on directories) are modelled with `Except.error`; the carried string is
the error code of the rejection.
-/

namespace BigUpload

/-- A filesystem entry: a regular file (byte content, mtime) or a directory
(named entries in readdir order, mtime). -/
inductive FsEntry where
  | file (content : List Nat) (mtime : Nat)
  | dir (entries : List (String × FsEntry)) (mtime : Nat)
deriving Repr

/-- Contents of one directory: named entries in readdir order. -/
abbrev FsDir := List (String × FsEntry)

def FsEntry.mtimeOf : FsEntry → Nat
  | .file _ t => t
  | .dir _ t => t

def FsEntry.isFile : FsEntry → Bool
  | .file _ _ => true
  | .dir _ _ => false

def FsEntry.isDir : FsEntry → Bool
  | .file _ _ => false
  | .dir _ _ => true

/-- Bytes of a regular file; a directory has no direct content. -/
def FsEntry.contentOf : FsEntry → List Nat
  | .file c _ => c
  | .dir _ _ => []

def isDirEntry : Option FsEntry → Bool
  | some e => e.isDir
  | none => false

/-- First entry with the given name (directory entries have unique names in
any state the filesystem can produce; on a duplicate list the first wins). -/
def lookupEntry : FsDir → String → Option FsEntry
  | [], _ => none
  | (n, e) :: rest, name => if n = name then some e else lookupEntry rest name

/-- Replace the entry with the given name, or append a fresh one (a newly
created name shows up at the end of the readdir order of this model). -/
def setEntry : FsDir → String → FsEntry → FsDir
  | [], name, e => [(name, e)]
  | (n, e0) :: rest, name, e =>
      if n = name then (n, e) :: rest else (n, e0) :: setEntry rest name e

/-- `fsExtra.remove`: recursively delete the named entry; no-op when absent. -/
def removeEntry : FsDir → String → FsDir
  | [], _ => []
  | (n, e0) :: rest, name =>
      if n = name then rest else (n, e0) :: removeEntry rest name

/-- Resolve a relative path (list of components) against a directory. -/
def lookupPath : FsDir → List String → Option FsEntry
  | _, [] => none
  | d, [n] => lookupEntry d n
  | d, n :: rest =>
      match lookupEntry d n with
      | some (.dir es _) => lookupPath es rest
      | _ => none

mutual
/-- `stat.size` contribution of one entry to `totalDirectorySize`: files count
their byte length, directories recurse (source lines 149-167). -/
def entrySize : FsEntry → Nat
  | .file c _ => c.length
  | .dir es _ => totalDirectorySize es

/-- `totalDirectorySize`: recursive sum of all file sizes below a directory. -/
def totalDirectorySize : FsDir → Nat
  | [] => 0
  | (_, e) :: rest => entrySize e + totalDirectorySize rest
end

/-- `checkIfFileExists` (source lines 169-176): `fs.stat` then `isFile()`,
with every stat failure caught and turned into `false`. -/
def checkIfFileExists (st : FsDir) (p : List String) : Bool :=
  match lookupPath st p with
  | some e => e.isFile
  | none => false

/-- `fs.writeFile` of one name inside an already-resolved directory: creates
or overwrites a regular file; a directory sitting at the target name makes the
promise reject with EISDIR. -/
def writeInDir (es : FsDir) (name : String) (content : List Nat) (now : Nat) :
    Except String FsDir :=
  match lookupEntry es name with
  | some (.dir _ _) => .error "EISDIR"
  | _ => .ok (setEntry es name (.file content now))

/-- `fsExtra.ensureDir` on a name directly under the staging root: create the
directory when absent, keep it when present; a regular file occupying the name
makes the promise reject. -/
def ensureDir (st : FsDir) (name : String) (now : Nat) : Except String FsDir :=
  match lookupEntry st name with
  | some (.dir _ _) => .ok st
  | some (.file _ _) => .error "EEXIST"
  | none => .ok (setEntry st name (.dir [] now))

/-- UTF byte content written for a string payload. -/
def strBytes (s : String) : List Nat := s.data.map Char.toNat

/-- Name of the staging directory of one upload: `'chunks_' + uploadId`. -/
def uploadDirName (uploadId : String) : String := "chunks_" ++ uploadId

/-- Chunk file name inside the staging directory. -/
def chunkFileName (part total : Nat) : String :=
  toString part ++ "-" ++ toString total

/-- Parameters of `loadUploadFiles` after merging with the defaults.
`allowUpload = none` models an absent predicate, `some b` a predicate whose
call returns `b` for the submission at hand. -/
structure Config where
  allowUpload : Option Bool
  maxUploadTime : Nat
  maxUploadSize : Nat
  maxDirectorySize : Nat
deriving Repr

/-- The zod-validated metadata object. -/
structure UploadInfo where
  uploadId : String
  uploadSize : Nat
  part : Nat
  total : Nat
deriving Repr

/-- The binary form payload; `size` of the `File` object is `content.length`. -/
structure UploadFile where
  content : List Nat
deriving Repr

/-- The JSON body handed to `Response.json`. -/
structure Response where
  ok : Bool
  error : Option String
  finished : Option Bool
deriving Repr, DecidableEq

/-- Result of one submission: the staging root afterwards, and either the JSON
response together with the `onFinished(uploadId, files.length)` invocation (if
any), or the code of the rejected promise that escaped the handler. -/
abbrev UploadResult := FsDir × Except String (Response × Option (String × Nat))

/-- `sendError` (source lines 71-74): write the message to
`uploadDir/error.txt`, then answer `{ok: false, error}`.  The write rejects
when the staging directory does not exist any more. -/
def sendError (now : Nat) (st : FsDir) (uploadId msg : String) : UploadResult :=
  match lookupEntry st (uploadDirName uploadId) with
  | some (.dir es mt) =>
      match writeInDir es "error.txt" (strBytes msg) now with
      | .ok es2 =>
          (setEntry st (uploadDirName uploadId) (.dir es2 mt),
           .ok ({ ok := false, error := some msg, finished := none }, none))
      | .error e => (st, .error e)
  | _ => (st, .error "ENOENT")

/-- `deleteOldUploads` (source lines 138-147): every entry directly under the
staging root whose age `now - mtime` exceeds `maxUploadTime` is recursively
removed; the others stay. -/
def deleteOldUploads (now maxUploadTime : Nat) : FsDir → FsDir
  | [] => []
  | (n, e) :: rest =>
      if now - e.mtimeOf > maxUploadTime then deleteOldUploads now maxUploadTime rest
      else (n, e) :: deleteOldUploads now maxUploadTime rest

/-- Chunk store step (source lines 103-106): write the payload under
`part-total` unless a regular file already sits there. -/
def storeChunk (now : Nat) (st : FsDir) (info : UploadInfo) (file : UploadFile) :
    FsDir × Except String Unit :=
  if checkIfFileExists st [uploadDirName info.uploadId, chunkFileName info.part info.total] then
    (st, .ok ())
  else
    match lookupEntry st (uploadDirName info.uploadId) with
    | some (.dir es mt) =>
        match writeInDir es (chunkFileName info.part info.total) file.content now with
        | .ok es2 => (setEntry st (uploadDirName info.uploadId) (.dir es2 mt), .ok ())
        | .error e => (st, .error e)
    | _ => (st, .error "ENOENT")

/-- The completeness loop (source lines 113-117): the first `i` in `1..total`
whose chunk file name is not among the listed names, `none` when all are
present.  Fuel `total + 1 - i` bounds the loop. -/
def findMissingFrom (files : List String) (total : Nat) : Nat → Nat → Option Nat
  | 0, _ => none
  | fuel + 1, i =>
      if i > total then none
      else if files.contains (chunkFileName i total) then findMissingFrom files total fuel (i + 1)
      else some i

def findMissingChunk (files : List String) (total : Nat) : Option Nat :=
  findMissingFrom files total (total + 1) 1

/-- Streaming reads of the listed names against the staging directory's
entries: the concatenation of their bytes in listing order; a missing name or
a directory rejects the surrounding promise. -/
def readFilesConcat (es : FsDir) : List String → Except String (List Nat)
  | [] => .ok []
  | n :: rest =>
      match lookupEntry es n with
      | some (.file c _) =>
          match readFilesConcat es rest with
          | .ok bs => .ok (c ++ bs)
          | .error e => .error e
      | some (.dir _ _) => .error "EISDIR"
      | none => .error "ENOENT"

/-- Base content the append-mode `createWriteStream` starts from: the bytes of
an existing regular file, nothing otherwise. -/
def appendBase : Option FsEntry → List Nat
  | some (.file c _) => c
  | _ => []

/-- Completion tail of `loadUploadFiles` (source lines 112-135): list the
staging directory, report the first missing chunk, otherwise append every
listed file into the final artifact in listing order, delete the staging
directory and reply finished with the `onFinished` payload
`(uploadId, files.length)`. -/
def finishStep (now : Nat) (uploadId : String) (total : Nat) (st : FsDir) : UploadResult :=
  match lookupEntry st (uploadDirName uploadId) with
  | some (.dir es _) =>
      match findMissingChunk (es.map Prod.fst) total with
      | some i =>
          sendError now st uploadId ("Missing chunk " ++ toString i ++ ", upload failed")
      | none =>
          if isDirEntry (lookupEntry st uploadId) then (st, .error "EISDIR")
          else
            match readFilesConcat es (es.map Prod.fst) with
            | .error e => (st, .error e)
            | .ok bytes =>
                (removeEntry
                   (setEntry st uploadId
                     (.file (appendBase (lookupEntry st uploadId) ++ bytes) now))
                   (uploadDirName uploadId),
                 .ok ({ ok := true, error := none, finished := some true },
                      some (uploadId, (es.map Prod.fst).length)))
  | _ => (st, .error "ENOENT")

/-- Store the chunk, then either acknowledge a non-final part or run the
completion tail (source lines 103-135). -/
def storeAndFinish (now : Nat) (info : UploadInfo) (file : UploadFile) (st : FsDir) :
    UploadResult :=
  match storeChunk now st info file with
  | (st3, .error e) => (st3, .error e)
  | (st3, .ok _) =>
      if info.part ≠ info.total then
        (st3, .ok ({ ok := true, error := none, finished := none }, none))
      else finishStep now info.uploadId info.total st3

/-- Duplicate-final-artifact guard followed by the store (source lines
97-135). -/
def artifactCheckAndStore (now : Nat) (info : UploadInfo) (file : UploadFile)
    (st : FsDir) : UploadResult :=
  if checkIfFileExists st [info.uploadId] then
    sendError now st info.uploadId "Upload already exists"
  else storeAndFinish now info file st

/-- The four admission checks of the quota guard, in source order (lines
76-95), then the duplicate-artifact guard and the store.  Only the fourth
check removes the staging directory before answering. -/
def guardsAndStore (cfg : Config) (now : Nat) (info : UploadInfo) (file : UploadFile)
    (st : FsDir) : UploadResult :=
  if cfg.allowUpload = some false then
    sendError now st info.uploadId "File not allowed"
  else if info.uploadSize > cfg.maxUploadSize then
    sendError now st info.uploadId "File size exceeded"
  else if totalDirectorySize st + max info.uploadSize file.content.length >
      cfg.maxDirectorySize then
    sendError now st info.uploadId "Directory size exceeded"
  else if totalDirectorySize st + info.uploadSize > cfg.maxUploadSize then
    sendError now (removeEntry st (uploadDirName info.uploadId)) info.uploadId
      "Upload size exceeded"
  else artifactCheckAndStore now info file st

/-- Everything after the reaping step: `ensureDir` of the upload's staging
directory (line 69), then guards and store. -/
def afterReap (cfg : Config) (now : Nat) (info : UploadInfo) (file : UploadFile)
    (st1 : FsDir) : UploadResult :=
  match ensureDir st1 (uploadDirName info.uploadId) now with
  | .error e => (st1, .error e)
  | .ok st2 => guardsAndStore cfg now info file st2

/-- `loadUploadFiles` on a gated, validated submission (source lines 55-136):
reap stale entries, then `afterReap`. -/
def runUpload (cfg : Config) (now : Nat) (info : UploadInfo) (file : UploadFile)
    (st0 : FsDir) : UploadResult :=
  afterReap cfg now info file (deleteOldUploads now cfg.maxUploadTime st0)

/-- Concatenation of the byte contents of a directory's entries in listing
order (spec-level description of what the assembly loop streams). -/
def filesBytes : FsDir → List Nat
  | [] => []
  | (_, e) :: rest => e.contentOf ++ filesBytes rest

/-! ### Helper lemmas about the filesystem primitives -/

theorem lookupEntry_setEntry_self (d : FsDir) (name : String) (e : FsEntry) :
    lookupEntry (setEntry d name e) name = some e := by
  induction d with
  | nil => simp [setEntry, lookupEntry]
  | cons hd rest ih =>
    obtain ⟨n, e0⟩ := hd
    by_cases h : n = name
    · simp [setEntry, lookupEntry, h]
    · simp [setEntry, lookupEntry, h, ih]

theorem lookupEntry_setEntry_ne (d : FsDir) (name m : String) (e : FsEntry)
    (h : m ≠ name) : lookupEntry (setEntry d name e) m = lookupEntry d m := by
  induction d with
  | nil => simp [setEntry, lookupEntry, Ne.symm h]
  | cons hd rest ih =>
    obtain ⟨n, e0⟩ := hd
    by_cases hn : n = name
    · subst hn
      simp [setEntry, lookupEntry, Ne.symm h]
    · simp [setEntry, lookupEntry, hn, ih]

theorem lookupEntry_eq_none_of_not_mem (d : FsDir) (name : String)
    (h : name ∉ d.map Prod.fst) : lookupEntry d name = none := by
  induction d with
  | nil => rfl
  | cons hd rest ih =>
    obtain ⟨n, e⟩ := hd
    simp only [List.map_cons, List.mem_cons] at h
    push_neg at h
    simp [lookupEntry, Ne.symm h.1, ih h.2]

theorem lookupEntry_removeEntry_self (d : FsDir) (name : String)
    (h : (d.map Prod.fst).Nodup) : lookupEntry (removeEntry d name) name = none := by
  induction d with
  | nil => rfl
  | cons hd rest ih =>
    obtain ⟨n, e⟩ := hd
    simp only [List.map_cons, List.nodup_cons] at h
    by_cases hn : n = name
    · subst hn
      simp [removeEntry, lookupEntry_eq_none_of_not_mem rest n h.1]
    · simp [removeEntry, lookupEntry, hn, ih h.2]

theorem uploadDirName_ne_self (s : String) : uploadDirName s ≠ s := by
  intro h
  have hd : ("chunks_".data ++ s.data : List Char) = s.data := congrArg String.data h
  have hlen := congrArg List.length hd
  simp [List.length_append] at hlen
  omega

theorem writeInDir_ok (es : FsDir) (name : String) (c : List Nat) (now : Nat)
    (h : isDirEntry (lookupEntry es name) = false) :
    writeInDir es name c now = .ok (setEntry es name (.file c now)) := by
  unfold writeInDir
  cases hl : lookupEntry es name with
  | none => rfl
  | some e =>
    cases e with
    | file c0 t0 => rfl
    | dir es0 t0 =>
      rw [hl] at h
      simp [isDirEntry, FsEntry.isDir] at h

theorem sendError_ok (now : Nat) (st : FsDir) (u msg : String) (es : FsDir) (mt : Nat)
    (hdir : lookupEntry st (uploadDirName u) = some (.dir es mt))
    (hmark : isDirEntry (lookupEntry es "error.txt") = false) :
    sendError now st u msg =
      (setEntry st (uploadDirName u)
         (.dir (setEntry es "error.txt" (.file (strBytes msg) now)) mt),
       .ok ({ ok := false, error := some msg, finished := none }, none)) := by
  simp only [sendError, hdir, writeInDir_ok es "error.txt" (strBytes msg) now hmark]

theorem runUpload_to_guards (cfg : Config) (now : Nat) (info : UploadInfo)
    (file : UploadFile) (st0 st1 st2 : FsDir)
    (h1 : deleteOldUploads now cfg.maxUploadTime st0 = st1)
    (h2 : ensureDir st1 (uploadDirName info.uploadId) now = .ok st2) :
    runUpload cfg now info file st0 = guardsAndStore cfg now info file st2 := by
  unfold runUpload afterReap
  rw [h1, h2]

theorem guards_pass (cfg : Config) (now : Nat) (info : UploadInfo)
    (file : UploadFile) (st2 : FsDir)
    (h3 : cfg.allowUpload ≠ some false)
    (h4 : ¬ info.uploadSize > cfg.maxUploadSize)
    (h5 : ¬ totalDirectorySize st2 + max info.uploadSize file.content.length >
        cfg.maxDirectorySize)
    (h6 : ¬ totalDirectorySize st2 + info.uploadSize > cfg.maxUploadSize) :
    guardsAndStore cfg now info file st2 = artifactCheckAndStore now info file st2 := by
  unfold guardsAndStore
  rw [if_neg h3, if_neg h4, if_neg h5, if_neg h6]

theorem findMissingFrom_spec (files : List String) (total : Nat) :
    ∀ fuel i k, findMissingFrom files total fuel i = some k →
      i ≤ k ∧ k ≤ total ∧ files.contains (chunkFileName k total) = false ∧
      ∀ j, i ≤ j → j < k → files.contains (chunkFileName j total) = true := by
  intro fuel
  induction fuel with
  | zero => intro i k h; simp [findMissingFrom] at h
  | succ fuel ih =>
    intro i k h
    unfold findMissingFrom at h
    by_cases hgt : i > total
    · rw [if_pos hgt] at h; exact absurd h (by simp)
    · rw [if_neg hgt] at h
      by_cases hc : files.contains (chunkFileName i total) = true
      · rw [if_pos hc] at h
        obtain ⟨ha, hb, hcc, hdd⟩ := ih (i + 1) k h
        refine ⟨Nat.le_of_succ_le ha, hb, hcc, fun j hj1 hj2 => ?_⟩
        by_cases hji : i = j
        · exact hji ▸ hc
        · exact hdd j (Nat.lt_of_le_of_ne hj1 hji) hj2
      · rw [if_neg hc] at h
        obtain rfl : i = k := Option.some.inj h
        exact ⟨Nat.le_refl i, Nat.not_lt.mp hgt, Bool.not_eq_true _ ▸ Bool.eq_false_iff.mpr hc,
          fun j hj1 hj2 => absurd (Nat.lt_of_le_of_lt hj1 hj2) (Nat.lt_irrefl i)⟩

theorem readFilesConcat_not_mem (n : String) (e : FsEntry) (es : FsDir)
    (names : List String) (h : n ∉ names) :
    readFilesConcat ((n, e) :: es) names = readFilesConcat es names := by
  induction names with
  | nil => rfl
  | cons m rest ih =>
    have hnm : ¬ n = m := fun hh => h (hh ▸ List.mem_cons_self m rest)
    have hrest : n ∉ rest := fun hh => h (List.mem_cons_of_mem m hh)
    simp only [readFilesConcat, lookupEntry, if_neg hnm, ih hrest]

theorem readFilesConcat_all (es : FsDir)
    (hnd : (es.map Prod.fst).Nodup)
    (hf : ∀ p ∈ es, p.2.isFile = true) :
    readFilesConcat es (es.map Prod.fst) = .ok (filesBytes es) := by
  induction es with
  | nil => rfl
  | cons hd rest ih =>
    obtain ⟨n, e⟩ := hd
    simp only [List.map_cons, List.nodup_cons] at hnd
    cases e with
    | dir es0 t0 =>
      have := hf (n, .dir es0 t0) (List.mem_cons_self _ _)
      simp [FsEntry.isFile] at this
    | file c t =>
      have hre := ih hnd.2 (fun p hp => hf p (List.mem_cons_of_mem _ hp))
      simp [List.map_cons, readFilesConcat, lookupEntry,
        readFilesConcat_not_mem n (FsEntry.file c t) rest _ hnd.1, hre,
        filesBytes, FsEntry.contentOf]

theorem deleteOldUploads_eq_filter (now T : Nat) (st : FsDir) :
    deleteOldUploads now T st =
      st.filter (fun p => decide (now - p.2.mtimeOf ≤ T)) := by
  induction st with
  | nil => rfl
  | cons hd rest ih =>
    obtain ⟨n, e⟩ := hd
    show (if now - e.mtimeOf > T then deleteOldUploads now T rest
          else (n, e) :: deleteOldUploads now T rest) =
        List.filter (fun p => decide (now - p.2.mtimeOf ≤ T)) ((n, e) :: rest)
    rw [List.filter_cons]
    by_cases h : now - e.mtimeOf > T
    · rw [if_pos h, decide_eq_false (Nat.not_le.mpr h), ih]
      simp only [Bool.false_eq_true, if_false]
    · rw [if_neg h, decide_eq_true (Nat.not_lt.mp h), ih]
      simp only [if_true]

/-! ### Claim theorems -/

/-- C1: the claim says the finishing submission concatenates the chunk
payloads in ascending part-index order regardless of the order the staging
directory listing returns the names.  The code streams the files in listing
order without sorting: when the listing yields `2-2` before `1-2` (chunk 2 was
stored first), the final artifact is payload2 followed by payload1, not the
ascending-order concatenation. -/
theorem assembly_listing_order_bug :
    runUpload ⟨none, 1000, 100, 1000⟩ 50 ⟨"U", 2, 2, 2⟩ ⟨[99]⟩
        [("chunks_U", FsEntry.dir
           [("2-2", FsEntry.file [20] 40), ("1-2", FsEntry.file [10] 45)] 40)] =
      ([("U", FsEntry.file [20, 10] 50)],
       .ok ({ ok := true, error := none, finished := some true }, some ("U", 2))) ∧
    [20, 10] ≠ [10] ++ [20] :=
  ⟨rfl, by decide⟩

/-- C2: the claim says the fourth quota check deletes the staging area and
still answers the JSON `ok: false, error: "Upload size exceeded"`.  In the
code the staging directory is removed and then `sendError` writes `error.txt`
inside the directory that was just removed, so the write rejects and the
exception escapes instead of the JSON response. -/
theorem quota_delete_then_write_throws :
    runUpload ⟨none, 1000, 100, 1000⟩ 50 ⟨"U", 10, 1, 3⟩ ⟨[7, 7]⟩
        [("V", FsEntry.file (List.replicate 95 0) 50)] =
      ([("V", FsEntry.file (List.replicate 95 0) 50)], .error "ENOENT") ∧
    totalDirectorySize [("V", FsEntry.file (List.replicate 95 0) 50)] + 10 > 100 :=
  ⟨rfl, by decide⟩

/-- C3 counterexample: a well-formed submission whose final artifact already
exists is rejected with a quota reason ("File size exceeded"), not with
"Upload already exists": the quota guard runs before the duplicate-artifact
check. -/
theorem quota_before_artifact_guard_cex :
    checkIfFileExists [("U", FsEntry.file [1, 1, 1, 1, 1] 50)] ["U"] = true ∧
    (runUpload ⟨none, 1000, 100, 1000⟩ 50 ⟨"U", 200, 1, 3⟩ ⟨[7]⟩
        [("U", FsEntry.file [1, 1, 1, 1, 1] 50)]).2 =
      .ok ({ ok := false, error := some "File size exceeded", finished := none }, none) :=
  ⟨rfl, rfl⟩

/-- C3 amended: the quota guard is evaluated before the duplicate-final-
artifact check; a submission whose final artifact exists is rejected with
"Upload already exists" only when all four quota checks pass, and a quota
failure (here the second check) rejects it with the quota reason instead. -/
theorem quota_before_artifact_guard (cfg : Config) (now : Nat) (info : UploadInfo)
    (file : UploadFile) (st0 st1 st2 : FsDir)
    (h1 : deleteOldUploads now cfg.maxUploadTime st0 = st1)
    (h2 : ensureDir st1 (uploadDirName info.uploadId) now = .ok st2)
    (hex : checkIfFileExists st2 [info.uploadId] = true) :
    (cfg.allowUpload ≠ some false → ¬ info.uploadSize > cfg.maxUploadSize →
      ¬ totalDirectorySize st2 + max info.uploadSize file.content.length >
          cfg.maxDirectorySize →
      ¬ totalDirectorySize st2 + info.uploadSize > cfg.maxUploadSize →
      runUpload cfg now info file st0 =
        sendError now st2 info.uploadId "Upload already exists") ∧
    (cfg.allowUpload ≠ some false → info.uploadSize > cfg.maxUploadSize →
      runUpload cfg now info file st0 =
        sendError now st2 info.uploadId "File size exceeded") := by
  have hg := runUpload_to_guards cfg now info file st0 st1 st2 h1 h2
  constructor
  · intro ha hs hd hu
    rw [hg, guards_pass cfg now info file st2 ha hs hd hu]
    unfold artifactCheckAndStore
    rw [if_pos hex]
  · intro ha hs
    rw [hg]
    unfold guardsAndStore
    rw [if_neg ha, if_pos hs]

theorem quota_before_artifact_guard_witness :
    runUpload ⟨none, 1000, 100, 1000⟩ 50 ⟨"U", 10, 1, 3⟩ ⟨[7, 7]⟩
        [("U", FsEntry.file [1, 1, 1, 1, 1] 50)] =
      sendError 50 [("U", FsEntry.file [1, 1, 1, 1, 1] 50), ("chunks_U", FsEntry.dir [] 50)]
        "U" "Upload already exists" :=
  (quota_before_artifact_guard ⟨none, 1000, 100, 1000⟩ 50 ⟨"U", 10, 1, 3⟩ ⟨[7, 7]⟩
      [("U", FsEntry.file [1, 1, 1, 1, 1] 50)] [("U", FsEntry.file [1, 1, 1, 1, 1] 50)]
      [("U", FsEntry.file [1, 1, 1, 1, 1] 50), ("chunks_U", FsEntry.dir [] 50)]
      rfl rfl rfl).1 (by decide) (by decide) (by decide) (by decide)

/-- C4 counterexample: after the upload FINISHED (final artifact present), a
further submission for the same identifier is answered "Upload already
exists", but it does mutate storage: the staging directory is recreated and
an `error.txt` marker is written into it. -/
theorem finished_resubmission_mutates :
    (runUpload ⟨none, 1000, 100, 1000⟩ 50 ⟨"U", 10, 1, 3⟩ ⟨[7, 7]⟩
        [("U", FsEntry.file [1, 1, 1, 1, 1] 50)]).2 =
      .ok ({ ok := false, error := some "Upload already exists", finished := none }, none) ∧
    lookupPath [("U", FsEntry.file [1, 1, 1, 1, 1] 50)]
      [uploadDirName "U", "error.txt"] = none ∧
    lookupPath (runUpload ⟨none, 1000, 100, 1000⟩ 50 ⟨"U", 10, 1, 3⟩ ⟨[7, 7]⟩
        [("U", FsEntry.file [1, 1, 1, 1, 1] 50)]).1 [uploadDirName "U", "error.txt"] =
      some (FsEntry.file (strBytes "Upload already exists") 50) :=
  ⟨rfl, rfl, rfl⟩

/-- C4 amended: after FINISHED, a further submission for the same identifier
that passes the quota checks is rejected with "Upload already exists" and
leaves the final artifact unchanged, but it recreates the staging directory
and writes the "Upload already exists" marker into `error.txt` there. -/
theorem finished_resubmission_marker (cfg : Config) (now : Nat) (info : UploadInfo)
    (file : UploadFile) (st0 st1 st2 : FsDir) (es : FsDir) (mt : Nat)
    (c : List Nat) (t : Nat)
    (h1 : deleteOldUploads now cfg.maxUploadTime st0 = st1)
    (h2 : ensureDir st1 (uploadDirName info.uploadId) now = .ok st2)
    (h3 : cfg.allowUpload ≠ some false)
    (h4 : ¬ info.uploadSize > cfg.maxUploadSize)
    (h5 : ¬ totalDirectorySize st2 + max info.uploadSize file.content.length >
        cfg.maxDirectorySize)
    (h6 : ¬ totalDirectorySize st2 + info.uploadSize > cfg.maxUploadSize)
    (hart : lookupEntry st2 info.uploadId = some (.file c t))
    (hdir : lookupEntry st2 (uploadDirName info.uploadId) = some (.dir es mt))
    (hmark : isDirEntry (lookupEntry es "error.txt") = false) :
    runUpload cfg now info file st0 =
      (setEntry st2 (uploadDirName info.uploadId)
         (.dir (setEntry es "error.txt" (.file (strBytes "Upload already exists") now)) mt),
       .ok ({ ok := false, error := some "Upload already exists", finished := none }, none)) ∧
    lookupEntry (runUpload cfg now info file st0).1 info.uploadId = some (.file c t) := by
  have hex : checkIfFileExists st2 [info.uploadId] = true := by
    simp [checkIfFileExists, lookupPath, hart, FsEntry.isFile]
  have hrun : runUpload cfg now info file st0 =
      sendError now st2 info.uploadId "Upload already exists" := by
    rw [runUpload_to_guards cfg now info file st0 st1 st2 h1 h2,
      guards_pass cfg now info file st2 h3 h4 h5 h6]
    unfold artifactCheckAndStore
    rw [if_pos hex]
  have hse := sendError_ok now st2 info.uploadId "Upload already exists" es mt hdir hmark
  constructor
  · rw [hrun, hse]
  · rw [hrun, hse]
    exact (lookupEntry_setEntry_ne st2 (uploadDirName info.uploadId) info.uploadId _
      (Ne.symm (uploadDirName_ne_self info.uploadId))).trans hart

theorem finished_resubmission_marker_witness :
    runUpload ⟨none, 1000, 100, 1000⟩ 50 ⟨"U", 10, 1, 3⟩ ⟨[7, 7]⟩
        [("U", FsEntry.file [1, 1, 1, 1, 1] 50), ("chunks_U", FsEntry.dir [] 40)] =
      (setEntry [("U", FsEntry.file [1, 1, 1, 1, 1] 50), ("chunks_U", FsEntry.dir [] 40)]
         (uploadDirName "U")
         (.dir (setEntry [] "error.txt" (.file (strBytes "Upload already exists") 50)) 40),
       .ok ({ ok := false, error := some "Upload already exists", finished := none }, none)) ∧
    lookupEntry (runUpload ⟨none, 1000, 100, 1000⟩ 50 ⟨"U", 10, 1, 3⟩ ⟨[7, 7]⟩
        [("U", FsEntry.file [1, 1, 1, 1, 1] 50), ("chunks_U", FsEntry.dir [] 40)]).1 "U" =
      some (FsEntry.file [1, 1, 1, 1, 1] 50) :=
  finished_resubmission_marker ⟨none, 1000, 100, 1000⟩ 50 ⟨"U", 10, 1, 3⟩ ⟨[7, 7]⟩
    [("U", FsEntry.file [1, 1, 1, 1, 1] 50), ("chunks_U", FsEntry.dir [] 40)]
    _ _ [] 40 [1, 1, 1, 1, 1] 50 rfl rfl (by decide) (by decide) (by decide) (by decide)
    rfl rfl rfl

/-- C6: the quota guard evaluates exactly four checks in source order, each a
terminal rejection with its message — (1) admission predicate, (2) declared
size over the per-upload maximum, (3) aggregate size plus the larger of
declared and actual size over the global maximum, (4) recomputed aggregate
size plus declared size over the per-upload maximum — and only the fourth
branch removes the upload's staging directory before reporting; when all four
pass, control falls through to the duplicate-artifact check and the store. -/
theorem quota_guard_four_checks (cfg : Config) (now : Nat) (info : UploadInfo)
    (file : UploadFile) (st0 st1 st2 : FsDir)
    (h1 : deleteOldUploads now cfg.maxUploadTime st0 = st1)
    (h2 : ensureDir st1 (uploadDirName info.uploadId) now = .ok st2) :
    (cfg.allowUpload = some false →
      runUpload cfg now info file st0 = sendError now st2 info.uploadId "File not allowed") ∧
    (cfg.allowUpload ≠ some false → info.uploadSize > cfg.maxUploadSize →
      runUpload cfg now info file st0 = sendError now st2 info.uploadId "File size exceeded") ∧
    (cfg.allowUpload ≠ some false → ¬ info.uploadSize > cfg.maxUploadSize →
      totalDirectorySize st2 + max info.uploadSize file.content.length >
          cfg.maxDirectorySize →
      runUpload cfg now info file st0 =
        sendError now st2 info.uploadId "Directory size exceeded") ∧
    (cfg.allowUpload ≠ some false → ¬ info.uploadSize > cfg.maxUploadSize →
      ¬ totalDirectorySize st2 + max info.uploadSize file.content.length >
          cfg.maxDirectorySize →
      totalDirectorySize st2 + info.uploadSize > cfg.maxUploadSize →
      runUpload cfg now info file st0 =
        sendError now (removeEntry st2 (uploadDirName info.uploadId)) info.uploadId
          "Upload size exceeded" ∧
      ((st2.map Prod.fst).Nodup →
        lookupEntry (removeEntry st2 (uploadDirName info.uploadId))
          (uploadDirName info.uploadId) = none)) ∧
    (cfg.allowUpload ≠ some false → ¬ info.uploadSize > cfg.maxUploadSize →
      ¬ totalDirectorySize st2 + max info.uploadSize file.content.length >
          cfg.maxDirectorySize →
      ¬ totalDirectorySize st2 + info.uploadSize > cfg.maxUploadSize →
      runUpload cfg now info file st0 = artifactCheckAndStore now info file st2) := by
  have hg := runUpload_to_guards cfg now info file st0 st1 st2 h1 h2
  refine ⟨fun ha => ?_, fun ha hs => ?_, fun ha hs hd => ?_,
    fun ha hs hd hu => ⟨?_, fun hnd => ?_⟩, fun ha hs hd hu => ?_⟩
  · rw [hg]; unfold guardsAndStore; rw [if_pos ha]
  · rw [hg]; unfold guardsAndStore; rw [if_neg ha, if_pos hs]
  · rw [hg]; unfold guardsAndStore; rw [if_neg ha, if_neg hs, if_pos hd]
  · rw [hg]; unfold guardsAndStore; rw [if_neg ha, if_neg hs, if_neg hd, if_pos hu]
  · exact lookupEntry_removeEntry_self st2 (uploadDirName info.uploadId) hnd
  · rw [hg]
    exact guards_pass cfg now info file st2 ha hs hd hu

theorem quota_guard_four_checks_witness :
    runUpload ⟨some false, 1000, 100, 1000⟩ 50 ⟨"U", 10, 1, 3⟩ ⟨[7]⟩ [] =
      sendError 50 [("chunks_U", FsEntry.dir [] 50)] "U" "File not allowed" :=
  (quota_guard_four_checks ⟨some false, 1000, 100, 1000⟩ 50 ⟨"U", 10, 1, 3⟩ ⟨[7]⟩
      [] [] [("chunks_U", FsEntry.dir [] 50)] rfl rfl).1 rfl

/-- C7: re-submitting a chunk whose `(part, total)` key already has a stored
file is a no-op on storage — the store step leaves the state exactly as it
was and does not overwrite the existing chunk file. -/
theorem chunk_store_idempotent (now : Nat) (st : FsDir) (info : UploadInfo)
    (file : UploadFile)
    (h : checkIfFileExists st
        [uploadDirName info.uploadId, chunkFileName info.part info.total] = true) :
    storeChunk now st info file = (st, .ok ()) := by
  unfold storeChunk
  rw [if_pos h]

theorem chunk_store_idempotent_witness :
    checkIfFileExists [("chunks_U", FsEntry.dir [("1-2", FsEntry.file [5] 0)] 0)]
        [uploadDirName "U", chunkFileName 1 2] = true ∧
    storeChunk 9 [("chunks_U", FsEntry.dir [("1-2", FsEntry.file [5] 0)] 0)]
        ⟨"U", 7, 1, 2⟩ ⟨[6]⟩ =
      ([("chunks_U", FsEntry.dir [("1-2", FsEntry.file [5] 0)] 0)], .ok ()) :=
  ⟨rfl, chunk_store_idempotent 9 [("chunks_U", FsEntry.dir [("1-2", FsEntry.file [5] 0)] 0)]
    ⟨"U", 7, 1, 2⟩ ⟨[6]⟩ rfl⟩

/-- C9: every submission first runs the reaper over the staging root with the
configured maximum age, independently of the submission's identifier, and
the reaper keeps exactly the entries whose age `now - mtime` is at most the
maximum: strictly older entries are recursively deleted, the rest are left in
place in order. -/
theorem reaper_purges_stale_entries (cfg : Config) (now : Nat) (info : UploadInfo)
    (file : UploadFile) (st0 : FsDir) (T : Nat) (st : FsDir) :
    deleteOldUploads now T st =
      st.filter (fun p => decide (now - p.2.mtimeOf ≤ T)) ∧
    runUpload cfg now info file st0 =
      afterReap cfg now info file (deleteOldUploads now cfg.maxUploadTime st0) :=
  ⟨deleteOldUploads_eq_filter now T st, rfl⟩

/-- C8: a finishing submission (`part = total`) that reaches the completeness
check with some chunk of `1..total` absent is answered
`ok: false, error: "Missing chunk i, upload failed"` where `i` is the smallest
missing index, and the staging directory is not deleted (the marker is written
into it). -/
theorem missing_chunk_reported (cfg : Config) (now : Nat) (info : UploadInfo)
    (file : UploadFile) (st0 st1 st2 st3 : FsDir) (es : FsDir) (mt i : Nat)
    (h1 : deleteOldUploads now cfg.maxUploadTime st0 = st1)
    (h2 : ensureDir st1 (uploadDirName info.uploadId) now = .ok st2)
    (h3 : cfg.allowUpload ≠ some false)
    (h4 : ¬ info.uploadSize > cfg.maxUploadSize)
    (h5 : ¬ totalDirectorySize st2 + max info.uploadSize file.content.length >
        cfg.maxDirectorySize)
    (h6 : ¬ totalDirectorySize st2 + info.uploadSize > cfg.maxUploadSize)
    (h7 : checkIfFileExists st2 [info.uploadId] = false)
    (h8 : storeChunk now st2 info file = (st3, .ok ()))
    (h9 : info.part = info.total)
    (h10 : lookupEntry st3 (uploadDirName info.uploadId) = some (.dir es mt))
    (h11 : findMissingChunk (es.map Prod.fst) info.total = some i)
    (hmark : isDirEntry (lookupEntry es "error.txt") = false) :
    runUpload cfg now info file st0 =
      (setEntry st3 (uploadDirName info.uploadId)
         (.dir (setEntry es "error.txt"
            (.file (strBytes ("Missing chunk " ++ toString i ++ ", upload failed")) now)) mt),
       .ok ({ ok := false,
              error := some ("Missing chunk " ++ toString i ++ ", upload failed"),
              finished := none }, none)) ∧
    1 ≤ i ∧ i ≤ info.total ∧
    (es.map Prod.fst).contains (chunkFileName i info.total) = false ∧
    (∀ j, 1 ≤ j → j < i →
      (es.map Prod.fst).contains (chunkFileName j info.total) = true) ∧
    isDirEntry (lookupEntry (runUpload cfg now info file st0).1
      (uploadDirName info.uploadId)) = true := by
  have hrun : runUpload cfg now info file st0 =
      sendError now st3 info.uploadId
        ("Missing chunk " ++ toString i ++ ", upload failed") := by
    rw [runUpload_to_guards cfg now info file st0 st1 st2 h1 h2,
      guards_pass cfg now info file st2 h3 h4 h5 h6]
    unfold artifactCheckAndStore
    rw [if_neg (by simp [h7])]
    simp [storeAndFinish, h8, h9, finishStep, h10, h11]
  obtain ⟨ha, hb, hc, hd⟩ :=
    findMissingFrom_spec (es.map Prod.fst) info.total (info.total + 1) 1 i h11
  have hse := sendError_ok now st3 info.uploadId
    ("Missing chunk " ++ toString i ++ ", upload failed") es mt h10 hmark
  refine ⟨by rw [hrun, hse], ha, hb, hc, fun j hj1 hj2 => hd j hj1 hj2, ?_⟩
  rw [hrun, hse]
  simp [lookupEntry_setEntry_self, isDirEntry, FsEntry.isDir]

theorem missing_chunk_reported_witness :
    (runUpload ⟨none, 1000, 1000, 10000⟩ 50 ⟨"U", 3, 3, 3⟩ ⟨[3]⟩
        [("chunks_U", FsEntry.dir [("2-3", FsEntry.file [2] 10)] 10)]).2 =
      .ok ({ ok := false, error := some "Missing chunk 1, upload failed",
             finished := none }, none) := by
  rw [(missing_chunk_reported ⟨none, 1000, 1000, 10000⟩ 50 ⟨"U", 3, 3, 3⟩ ⟨[3]⟩
      [("chunks_U", FsEntry.dir [("2-3", FsEntry.file [2] 10)] 10)] _ _ _ _ _ _
      rfl rfl (by decide) (by decide) (by decide) (by decide)
      rfl rfl rfl rfl rfl rfl).1]
  rfl

/-- C5: when the finishing submission passes the completeness check, the
assembler streams every entry of the staging directory in listing order into
the final artifact — including files that are not chunks of this upload, such
as an `error.txt` marker — and the completion hook receives the number of
directory entries, which can exceed the declared total. -/
theorem completion_merges_all_entries (cfg : Config) (now : Nat) (info : UploadInfo)
    (file : UploadFile) (st0 st1 st2 st3 : FsDir) (es : FsDir) (mt : Nat)
    (h1 : deleteOldUploads now cfg.maxUploadTime st0 = st1)
    (h2 : ensureDir st1 (uploadDirName info.uploadId) now = .ok st2)
    (h3 : cfg.allowUpload ≠ some false)
    (h4 : ¬ info.uploadSize > cfg.maxUploadSize)
    (h5 : ¬ totalDirectorySize st2 + max info.uploadSize file.content.length >
        cfg.maxDirectorySize)
    (h6 : ¬ totalDirectorySize st2 + info.uploadSize > cfg.maxUploadSize)
    (h7 : checkIfFileExists st2 [info.uploadId] = false)
    (h8 : storeChunk now st2 info file = (st3, .ok ()))
    (h9 : info.part = info.total)
    (h10 : lookupEntry st3 (uploadDirName info.uploadId) = some (.dir es mt))
    (h11 : findMissingChunk (es.map Prod.fst) info.total = none)
    (h12 : (es.map Prod.fst).Nodup)
    (h13 : ∀ p ∈ es, p.2.isFile = true)
    (h14 : lookupEntry st3 info.uploadId = none) :
    runUpload cfg now info file st0 =
      (removeEntry (setEntry st3 info.uploadId (.file (filesBytes es) now))
         (uploadDirName info.uploadId),
       .ok ({ ok := true, error := none, finished := some true },
            some (info.uploadId, es.length))) := by
  rw [runUpload_to_guards cfg now info file st0 st1 st2 h1 h2,
    guards_pass cfg now info file st2 h3 h4 h5 h6]
  unfold artifactCheckAndStore
  rw [if_neg (by simp [h7])]
  simp [storeAndFinish, h8, h9, finishStep, h10, h11, h14, isDirEntry,
    readFilesConcat_all es h12 h13, appendBase, List.length_map]

theorem completion_merges_all_entries_witness :
    (runUpload ⟨none, 1000, 1000, 10000⟩ 50 ⟨"U", 3, 3, 3⟩ ⟨[9]⟩
        [("chunks_U", FsEntry.dir
           [("1-3", FsEntry.file [1] 10), ("2-3", FsEntry.file [2] 10),
            ("error.txt", FsEntry.file (strBytes "File not allowed") 10),
            ("3-3", FsEntry.file [3] 10)] 10)]).2 =
      .ok ({ ok := true, error := none, finished := some true }, some ("U", 4)) ∧
    3 < 4 := by
  refine ⟨?_, by decide⟩
  rw [completion_merges_all_entries ⟨none, 1000, 1000, 10000⟩ 50 ⟨"U", 3, 3, 3⟩ ⟨[9]⟩
    [("chunks_U", FsEntry.dir
       [("1-3", FsEntry.file [1] 10), ("2-3", FsEntry.file [2] 10),
        ("error.txt", FsEntry.file (strBytes "File not allowed") 10),
        ("3-3", FsEntry.file [3] 10)] 10)] _ _ _ _ _
    rfl rfl (by decide) (by decide) (by decide) (by decide)
    rfl rfl rfl rfl rfl (by decide) (by decide) rfl]
  rfl

/-- C10: `checkIfFileExists` is total and never propagates an error: it
answers `false` both when `stat` fails (the path resolves to nothing) and when
the path resolves to something that is not a regular file; consequently a
directory sitting at the final-artifact path does not trigger the
"Upload already exists" guard, and the submission falls through to the store
step. -/
theorem checkIfFileExists_safe :
    (∀ (st : FsDir) (p : List String),
      lookupPath st p = none → checkIfFileExists st p = false) ∧
    (∀ (st : FsDir) (p : List String) (es : FsDir) (mt : Nat),
      lookupPath st p = some (.dir es mt) → checkIfFileExists st p = false) ∧
    (∀ (cfg : Config) (now : Nat) (info : UploadInfo) (file : UploadFile)
      (st0 st1 st2 des : FsDir) (dmt : Nat),
      deleteOldUploads now cfg.maxUploadTime st0 = st1 →
      ensureDir st1 (uploadDirName info.uploadId) now = .ok st2 →
      cfg.allowUpload ≠ some false →
      ¬ info.uploadSize > cfg.maxUploadSize →
      ¬ totalDirectorySize st2 + max info.uploadSize file.content.length >
          cfg.maxDirectorySize →
      ¬ totalDirectorySize st2 + info.uploadSize > cfg.maxUploadSize →
      lookupEntry st2 info.uploadId = some (.dir des dmt) →
      runUpload cfg now info file st0 = storeAndFinish now info file st2) := by
  refine ⟨fun st p h => ?_, fun st p es mt h => ?_, ?_⟩
  · simp [checkIfFileExists, h]
  · simp [checkIfFileExists, h, FsEntry.isFile]
  · intro cfg now info file st0 st1 st2 des dmt h1 h2 h3 h4 h5 h6 hdir
    have hex : checkIfFileExists st2 [info.uploadId] = false := by
      simp [checkIfFileExists, lookupPath, hdir, FsEntry.isFile]
    rw [runUpload_to_guards cfg now info file st0 st1 st2 h1 h2,
      guards_pass cfg now info file st2 h3 h4 h5 h6]
    unfold artifactCheckAndStore
    rw [if_neg (by simp [hex])]

theorem checkIfFileExists_safe_witness :
    checkIfFileExists [("d", FsEntry.dir [] 0)] ["d"] = false ∧
    runUpload ⟨none, 1000, 100, 1000⟩ 50 ⟨"U", 10, 1, 3⟩ ⟨[7]⟩
        [("U", FsEntry.dir [] 50)] =
      storeAndFinish 50 ⟨"U", 10, 1, 3⟩ ⟨[7]⟩
        [("U", FsEntry.dir [] 50), ("chunks_U", FsEntry.dir [] 50)] :=
  ⟨checkIfFileExists_safe.2.1 [("d", FsEntry.dir [] 0)] ["d"] [] 0 rfl,
   checkIfFileExists_safe.2.2 ⟨none, 1000, 100, 1000⟩ 50 ⟨"U", 10, 1, 3⟩ ⟨[7]⟩
     [("U", FsEntry.dir [] 50)] _ _ [] 50 rfl rfl (by decide) (by decide)
     (by decide) (by decide) rfl⟩

end BigUpload
